import Mathlib

/-!
Verification of the protobuf decode pipeline of `src/async_impl/proto_decoder.rs`.

The decoder is embedded shallowly: the three `scc::HashMap` caches of the
`ProtoDecoder` struct become total functions `Nat -> Option _`, async methods
become pure state-passing functions, and every external collaborator that is
absent from `src/` (the registry HTTP client, the protofish descriptor pool,
the `proto_resolver` module, the `error` module, `schema_registry_common`) is
either modelled from the spec or abstracted as a function-valued field of a
`Collab` record that is universally quantified in the theorems. Each operation
additionally returns an `Effects` record counting how many times it invoked the
registry fetch for the requested identifier and how many times it invoked
descriptor-pool compilation (`into_decode_context`); both events are explicit
call sites in the source, so the counts are part of the embedding, not of the
modelled collaborators.
-/

deriving instance DecidableEq for Except

/-- Error type of the library (module `error`, absent from src/). Modelled from
the spec: a cause-carrying error tagged retryable or non-retryable, plus the
"this came from cache" marker. The field names `error`, `side`, `retriable`,
`cached` follow the uses in src (for example `error.cached` in the tests of
`proto_decoder.rs` and the constructor calls `SRCError::new(msg, cause, retriable)`). -/
structure SRCError where
  error : String
  side : Option String
  retriable : Bool
  cached : Bool
deriving DecidableEq

/-- Constructor used at `proto_decoder.rs` line 98: a fresh error is built with
the cached marker unset. -/
def SRCError.new (msg : String) (cause : Option String) (retriable : Bool) : SRCError :=
  { error := msg, side := cause, retriable := retriable, cached := false }

/-- Conversion applied at `proto_decoder.rs` line 161 before an error is stored
in the error cache and returned. Modelled from the spec together with the test
`test_decoder_cache` in src, which asserts that already the first decode call
observing a registry failure returns an error whose `cached` field is true:
`into_cache` sets the cached marker. -/
def SRCError.into_cache (e : SRCError) : SRCError :=
  { e with cached := true }

/-- Constructor used at `proto_decoder.rs` line 231: non-retryable, cause-carrying,
cached marker unset. -/
def SRCError.non_retryable_with_cause (cause : String) (msg : String) : SRCError :=
  { error := msg, side := some cause, retriable := false, cached := false }

/-- Reference entry of a registered schema (`schema_registry_common`, absent
from src/). Modelled from the spec: a named pointer (name, subject, version)
declaring another schema document that this document imports. -/
structure Reference where
  name : String
  subject : String
  version : Nat
deriving DecidableEq

/-- Registered schema as returned by the registry (`schema_registry_common`,
absent from src/). Modelled from the spec: the source text of one schema file
plus its ordered list of declared references; these are the two fields read by
`add_files` in `proto_decoder.rs`. -/
structure RegisteredSchema where
  schema : String
  references : List Reference
deriving DecidableEq

/-- Name resolver of the root schema document (`proto_resolver`, absent from
src/). Modelled from the spec: it is derived purely from the root document text
(`MessageResolver::new(vec_of_schemas.last())` in `into_decode_context`), so it
is modelled by that text. -/
structure MessageResolver where
  root_schema : String
deriving DecidableEq

/-- Compiled descriptor pool (protofish `Context`, an external library).
Modelled from the spec: a queryable compiled view of a set of schema files,
modelled by the file set it was compiled from. -/
structure PContext where
  pool : List String
deriving DecidableEq

/-- The `DecodeContext` struct of `proto_decoder.rs` lines 215 to 219: a name
resolver plus a compiled descriptor pool. -/
structure DecodeContext where
  resolver : MessageResolver
  context : PContext
deriving DecidableEq

/-- Structured value produced by the descriptor-pool decode call (protofish
`MessageValue`, an external library). Modelled from the spec: it is produced by
the external collaborator from the resolved name and the payload handed to it,
so it is modelled by those two inputs. -/
structure MessageValue where
  full_name : String
  data : List Nat
deriving DecidableEq

/-- Return type of `decode` (protofish `Value`, an external library), restricted
to the two variants `proto_decoder.rs` constructs: a raw bytes value and a
structured message value. -/
inductive Value where
  | bytes : List Nat → Value
  | message : MessageValue → Value
deriving DecidableEq

/-- The `DecodeResultWithContext` struct of `proto_decoder.rs` lines 191 to 197. -/
structure DecodeResultWithContext where
  value : MessageValue
  context : DecodeContext
  full_name : String
  data_bytes : List Nat
deriving DecidableEq

/-- Classification of an input byte buffer (`BytesResult` of
`schema_registry_common`, absent from src/). Modelled from the spec: null
input, valid framing (extracted identifier plus remaining bytes), or invalid
framing carrying the original bytes verbatim. -/
inductive BytesResult where
  | null : BytesResult
  | valid : Nat → List Nat → BytesResult
  | invalid : List Nat → BytesResult
deriving DecidableEq

/-- Big-endian 32-bit schema identifier read from bytes 1 to 4 of the input. -/
def schema_id_of (p : List Nat) : Nat :=
  p.getD 1 0 * 16777216 + p.getD 2 0 * 65536 + p.getD 3 0 * 256 + p.getD 4 0

/-- Input framing collaborator (`get_bytes_result` of `schema_registry_common`,
absent from src/). Modelled from the spec: `None` is null; a buffer of more
than four bytes starting with the zero magic marker is valid and splits into
the big-endian identifier and the remaining bytes; anything else is invalid and
carries the original bytes verbatim. -/
def get_bytes_result : Option (List Nat) → BytesResult
  | none => BytesResult.null
  | some p =>
    if 4 < p.length ∧ p.head? = some 0 then
      BytesResult.valid (schema_id_of p) (p.drop 5)
    else
      BytesResult.invalid p

/-- Wire envelope reader (`to_index_and_data` of `proto_resolver`, absent from
src/). Modelled from the spec: the byte sequence after the stripped identifier
is either the single-byte shorthand 0, meaning the one-element index path with
element 0, or a count followed by that many path elements; everything after
this is the literal payload. The variable-length integer encoding of a path
element is abstracted to one byte per element, which no claim depends on. -/
def to_index_and_data (bytes : List Nat) : List Nat × List Nat :=
  match bytes with
  | [] => ([], [])
  | 0 :: rest => ([0], rest)
  | n :: rest => (rest.take n, rest.drop n)

/-- Message of the invalid-payload error built at `proto_decoder.rs` line 98. -/
def invalidPayloadMsg : String := "no protobuf compatible bytes"

/-- Message of the compile error built at `proto_decoder.rs` line 233. -/
def protoContextMsg : String := "Error creating proto context"

/-- Message of the modelled error standing for the source panic on
`vec_of_schemas.last().unwrap()` at `proto_decoder.rs` line 222. -/
def emptyClosureMsg : String := "empty schema closure"

/-- External collaborators of the decoder, bundled: the registry client
(`async_impl/schema_registry`, absent from src/), the resolver construction and
name resolution of `proto_resolver` (absent from src/), the common well-known
files of `proto_common_types` (absent from src/), and the protofish descriptor
pool (external library). Theorems quantify over this record, so nothing is
assumed about the collaborators beyond their signatures. -/
structure Collab where
  get_schema_by_id_and_type : Nat → Except SRCError RegisteredSchema
  to_vec_of_schemas : RegisteredSchema → Except SRCError (List String)
  message_resolver_new : String → MessageResolver
  common_files : MessageResolver → List String
  ctx_parse : List String → Except String PContext
  resolve_name : MessageResolver → List Nat → Except SRCError String
  decode_message : PContext → String → List Nat → MessageValue

/-- Effects of one decoder operation: `fetches` counts invocations of the
registry fetch for the requested identifier (the `get_schema_by_id_and_type`
call site in `get_vec_of_schemas`), `compiles` counts invocations of
descriptor-pool compilation (the `into_decode_context` call sites). -/
structure Effects where
  fetches : Nat
  compiles : Nat
deriving DecidableEq

/-- No effect. -/
def Effects.zero : Effects := { fetches := 0, compiles := 0 }

/-- Componentwise sum of effects. -/
def Effects.add (a b : Effects) : Effects :=
  { fetches := a.fetches + b.fetches, compiles := a.compiles + b.compiles }

/-- The `ProtoDecoder` struct of `proto_decoder.rs` lines 20 to 26, restricted
to its mutable state: the closure success cache, the error cache and the
context cache, each keyed by the 32-bit schema identifier. The immutable
`sr_settings` field lives in `Collab`. -/
structure ProtoDecoder where
  cache : Nat → Option (List String)
  error_cache : Nat → Option SRCError
  context_cache : Nat → Option DecodeContext

/-- The constructor `ProtoDecoder::new`: all three caches start empty. -/
def ProtoDecoder.new : ProtoDecoder :=
  { cache := fun _ => none, error_cache := fun _ => none, context_cache := fun _ => none }

/-- The method `ProtoDecoder::remove_errors_from_cache` (lines 45 to 47):
`self.error_cache.clear()`. -/
def ProtoDecoder.remove_errors_from_cache (s : ProtoDecoder) : ProtoDecoder :=
  { s with error_cache := fun _ => none }

/-- The closure build attempted in the vacant branch of `get_vec_of_schemas`
(lines 149 to 154): fetch the registered schema by identifier, then resolve its
reference closure with `to_vec_of_schemas`; a failure of either step is the
build error. -/
def closure_fetch (cb : Collab) (id : Nat) : Except SRCError (List String) :=
  match cb.get_schema_by_id_and_type id with
  | Except.ok registered_schema => cb.to_vec_of_schemas registered_schema
  | Except.error err => Except.error err

/-- The method `ProtoDecoder::get_vec_of_schemas` (lines 134 to 169): a hit in
the closure success cache returns the stored closure; otherwise a cached error
for the identifier is returned as is; otherwise the closure is built, and the
result is stored in the success cache on success, or converted with
`into_cache` and stored in the error cache on failure. -/
def ProtoDecoder.get_vec_of_schemas (cb : Collab) (s : ProtoDecoder) (id : Nat) :
    Except SRCError (List String) × ProtoDecoder × Effects :=
  match s.cache id with
  | some v => (Except.ok v, s, Effects.zero)
  | none =>
    match s.error_cache id with
    | some err => (Except.error err, s, Effects.zero)
    | none =>
      match closure_fetch cb id with
      | Except.ok v =>
        (Except.ok v,
          { s with cache := fun k => if k = id then some v else s.cache k },
          { fetches := 1, compiles := 0 })
      | Except.error e =>
        (Except.error (SRCError.into_cache e),
          { s with error_cache := fun k =>
              if k = id then some (SRCError.into_cache e) else s.error_cache k },
          { fetches := 1, compiles := 0 })

/-- The function `into_decode_context` (lines 221 to 236): take the final
closure element as the root document, derive the resolver from it, merge the
deduplicated closure texts with the built-in common files, and compile the set
into a descriptor pool. The source unwraps `vec_of_schemas.last()`; the empty
closure, unreachable from `add_files` output, is modelled as an error. -/
def into_decode_context (cb : Collab) (vec_of_schemas : List String) :
    Except SRCError DecodeContext :=
  match vec_of_schemas.getLast? with
  | none => Except.error (SRCError.new emptyClosureMsg none false)
  | some root =>
    let resolver := cb.message_resolver_new root
    let files := (cb.common_files resolver ++ vec_of_schemas).dedup
    match cb.ctx_parse files with
    | Except.ok context => Except.ok { resolver := resolver, context := context }
    | Except.error e => Except.error (SRCError.non_retryable_with_cause e protoContextMsg)

/-- The method `ProtoDecoder::deserialize` (lines 64 to 75): look up the
closure, compile a decode context from it directly (no context-cache lookup
appears on this path in the source), split the wire envelope, resolve the name
and decode. Each call on this path invokes `into_decode_context` once the
closure lookup succeeds. -/
def ProtoDecoder.deserialize (cb : Collab) (s : ProtoDecoder) (id : Nat) (bytes : List Nat) :
    Except SRCError MessageValue × ProtoDecoder × Effects :=
  match s.get_vec_of_schemas cb id with
  | (Except.error e, s1, eff) => (Except.error e, s1, eff)
  | (Except.ok vec, s1, eff) =>
    match into_decode_context cb vec with
    | Except.error e => (Except.error e, s1, Effects.add eff { fetches := 0, compiles := 1 })
    | Except.ok ctx =>
      let p := to_index_and_data bytes
      match cb.resolve_name ctx.resolver p.1 with
      | Except.error e => (Except.error e, s1, Effects.add eff { fetches := 0, compiles := 1 })
      | Except.ok full_name =>
        (Except.ok (cb.decode_message ctx.context full_name p.2), s1,
          Effects.add eff { fetches := 0, compiles := 1 })

/-- The method `ProtoDecoder::context` (lines 173 to 188): a hit in the context
cache returns the stored context; otherwise the closure is looked up, compiled
once with `into_decode_context`, and the result is stored in the context cache
on success; a compile failure propagates without touching any cache. -/
def ProtoDecoder.context (cb : Collab) (s : ProtoDecoder) (id : Nat) :
    Except SRCError DecodeContext × ProtoDecoder × Effects :=
  match s.context_cache id with
  | some ctx => (Except.ok ctx, s, Effects.zero)
  | none =>
    match s.get_vec_of_schemas cb id with
    | (Except.error e, s1, eff) => (Except.error e, s1, eff)
    | (Except.ok vec, s1, eff) =>
      match into_decode_context cb vec with
      | Except.error e => (Except.error e, s1, Effects.add eff { fetches := 0, compiles := 1 })
      | Except.ok ctx =>
        (Except.ok ctx,
          { s1 with context_cache := fun k => if k = id then some ctx else s1.context_cache k },
          Effects.add eff { fetches := 0, compiles := 1 })

/-- The method `ProtoDecoder::deserialize_with_context` (lines 105 to 129):
look up the cached-or-built context, split the wire envelope, resolve the name,
decode, and return the value together with the context, the resolved name and
the payload bytes. -/
def ProtoDecoder.deserialize_with_context (cb : Collab) (s : ProtoDecoder) (id : Nat)
    (bytes : List Nat) :
    Except SRCError DecodeResultWithContext × ProtoDecoder × Effects :=
  match s.context cb id with
  | (Except.error e, s1, eff) => (Except.error e, s1, eff)
  | (Except.ok ctx, s1, eff) =>
    let p := to_index_and_data bytes
    match cb.resolve_name ctx.resolver p.1 with
    | Except.error e => (Except.error e, s1, eff)
    | Except.ok full_name =>
      (Except.ok
        { value := cb.decode_message ctx.context full_name p.2,
          context := ctx, full_name := full_name, data_bytes := p.2 },
        s1, eff)

/-- The method `ProtoDecoder::decode` (lines 53 to 61): null input yields an
empty bytes value, valid framing runs `deserialize` and wraps the result in a
message value, invalid framing yields the original bytes verbatim as a bytes
value without touching any state. -/
def ProtoDecoder.decode (cb : Collab) (s : ProtoDecoder) (bytes : Option (List Nat)) :
    Except SRCError Value × ProtoDecoder × Effects :=
  match get_bytes_result bytes with
  | BytesResult.null => (Except.ok (Value.bytes []), s, Effects.zero)
  | BytesResult.valid id rest =>
    match s.deserialize cb id rest with
    | (Except.ok m, s1, eff) => (Except.ok (Value.message m), s1, eff)
    | (Except.error e, s1, eff) => (Except.error e, s1, eff)
  | BytesResult.invalid i => (Except.ok (Value.bytes i), s, Effects.zero)

/-- The method `ProtoDecoder::decode_with_context` (lines 81 to 101): null
input yields `Ok(None)`, valid framing runs `deserialize_with_context`, invalid
framing yields an invalid-payload error without touching any state. -/
def ProtoDecoder.decode_with_context (cb : Collab) (s : ProtoDecoder)
    (bytes : Option (List Nat)) :
    Except SRCError (Option DecodeResultWithContext) × ProtoDecoder × Effects :=
  match get_bytes_result bytes with
  | BytesResult.null => (Except.ok none, s, Effects.zero)
  | BytesResult.valid id rest =>
    match s.deserialize_with_context cb id rest with
    | (Except.ok v, s1, eff) => (Except.ok (some v), s1, eff)
    | (Except.error e, s1, eff) => (Except.error e, s1, eff)
  | BytesResult.invalid _ =>
    (Except.error (SRCError.new invalidPayloadMsg none false), s, Effects.zero)

/-! Concrete collaborator instances used to evaluate the decoder on explicit
inputs, mirroring the heartbeat scenario of the tests in `proto_decoder.rs`:
schema identifier 7, a single schema file with one message, index path 0. -/

/-- Schema text of the concrete scenario. -/
def schemaTextX : String := "message X"

/-- Fully qualified name resolved in the concrete scenario. -/
def nameX : String := "X"

/-- Message of the concrete registry failure. -/
def msgBoom : String := "boom"

/-- Registered schema of the concrete scenario: no references. -/
def rsX : RegisteredSchema := { schema := schemaTextX, references := [] }

/-- Collaborators for which every pipeline step succeeds. -/
def collabOk : Collab :=
  { get_schema_by_id_and_type := fun _ => Except.ok rsX,
    to_vec_of_schemas := fun rs => Except.ok [rs.schema],
    message_resolver_new := fun root => { root_schema := root },
    common_files := fun _ => [],
    ctx_parse := fun fs => Except.ok { pool := fs },
    resolve_name := fun _ _ => Except.ok nameX,
    decode_message := fun _ n d => { full_name := n, data := d } }

/-- The concrete retryable registry failure, cached marker unset. -/
def errBoom : SRCError := { error := msgBoom, side := none, retriable := true, cached := false }

/-- Collaborators for which the registry fetch fails with `errBoom`. -/
def collabErr : Collab :=
  { collabOk with get_schema_by_id_and_type := fun _ => Except.error errBoom }

/-- Concrete input bytes: magic marker 0, big-endian identifier 7, index path
shorthand 0, empty payload. -/
def bs0 : List Nat := [0, 0, 0, 0, 7, 0]

/-- The decode context of the concrete success scenario. -/
def ctxVal : DecodeContext :=
  { resolver := { root_schema := schemaTextX }, context := { pool := [schemaTextX] } }

/-- The decode result of the concrete success scenario. -/
def rVal : DecodeResultWithContext :=
  { value := { full_name := nameX, data := [] }, context := ctxVal,
    full_name := nameX, data_bytes := [] }

/-- Mutual exclusion of the closure success cache and the error cache: at
every identifier at most one of the two has an entry. -/
def ExclusiveCaches (s : ProtoDecoder) : Prop :=
  ∀ id, s.cache id = none ∨ s.error_cache id = none

/-- Decoder states reachable from the fresh decoder through the public
interface: `decode`, `decode_with_context` and `remove_errors_from_cache`,
with arbitrary collaborator behaviour at every step. -/
inductive Reachable : ProtoDecoder → Prop where
  | init : Reachable ProtoDecoder.new
  | decode_step (cb : Collab) (s : ProtoDecoder) (bytes : Option (List Nat)) :
      Reachable s → Reachable (ProtoDecoder.decode cb s bytes).2.1
  | decode_with_context_step (cb : Collab) (s : ProtoDecoder) (bytes : Option (List Nat)) :
      Reachable s → Reachable (ProtoDecoder.decode_with_context cb s bytes).2.1
  | clear_step (s : ProtoDecoder) :
      Reachable s → Reachable s.remove_errors_from_cache

/-! Embedding of the recursive reference-closure resolution (`add_files` and
`to_vec_of_schemas`, lines 199 to 213 and 238 to 245). The source recursion has
no depth bound; the embedding makes the recursion depth explicit with a fuel
argument, one unit per nesting level, so that unbounded recursion on a cyclic
reference graph appears as fuel exhaustion at every fuel value. -/

/-- Result of the fuel-bounded embedding of `add_files`: a resolved closure, a
registry error, or fuel exhaustion (the embedding image of recursion deeper
than the bound; in the source this recursion simply does not return). -/
inductive AddFilesResult where
  | ok : List String → AddFilesResult
  | err : SRCError → AddFilesResult
  | outOfFuel : AddFilesResult
deriving DecidableEq

mutual

/-- The function `add_files` (lines 199 to 213): for each declared reference in
declaration order, fetch the referenced schema via `get_referenced_schema`
(the function argument `reg`) and append its resolved sub-closure recursively,
then append the own source text of the current document. -/
def add_files (reg : Reference → Except SRCError RegisteredSchema) (fuel : Nat)
    (registered_schema : RegisteredSchema) (files : List String) : AddFilesResult :=
  match fuel with
  | 0 => AddFilesResult.outOfFuel
  | f + 1 =>
    match add_files_refs reg f registered_schema.references files with
    | AddFilesResult.ok fs => AddFilesResult.ok (fs ++ [registered_schema.schema])
    | r => r
termination_by (fuel, 0)

/-- The reference loop of `add_files` (lines 205 to 208), in declaration
order. -/
def add_files_refs (reg : Reference → Except SRCError RegisteredSchema) (fuel : Nat)
    (refs : List Reference) (files : List String) : AddFilesResult :=
  match refs with
  | [] => AddFilesResult.ok files
  | r :: rest =>
    match reg r with
    | Except.error e => AddFilesResult.err e
    | Except.ok child =>
      match add_files reg fuel child files with
      | AddFilesResult.ok fs => add_files_refs reg fuel rest fs
      | other => other
termination_by (fuel, refs.length + 1)

end

/-- The function `to_vec_of_schemas` (lines 238 to 245): resolve the reference
closure of a registered schema starting from the empty list. -/
def to_vec_of_schemas (reg : Reference → Except SRCError RegisteredSchema) (fuel : Nat)
    (registered_schema : RegisteredSchema) : AddFilesResult :=
  add_files reg fuel registered_schema []

/-- Finite unfolding of an acyclic reference graph from a root document: each
node carries the source text of one document and the subtrees of its declared
references in declaration order. -/
inductive DocTree where
  | node : String → List DocTree → DocTree

mutual

/-- Modelled from the spec, for the refinement statement of C3: the
dependency-first linearisation of section 4.2 — for each document, the
closures of its referenced documents in declaration order, followed by the own
text of the document, so the root text is the final element. -/
def closureSpec : DocTree → List String
  | DocTree.node s cs => closureSpecList cs ++ [s]
termination_by t => sizeOf t

/-- Concatenation of the closures of a forest, in order. -/
def closureSpecList : List DocTree → List String
  | [] => []
  | t :: ts => closureSpec t ++ closureSpecList ts
termination_by ts => sizeOf ts

end

mutual

/-- Nesting depth of a document tree: the fuel needed by `add_files`. -/
def docHeight : DocTree → Nat
  | DocTree.node _ cs => docHeightList cs + 1
termination_by t => sizeOf t

/-- Maximum nesting depth over a forest. -/
def docHeightList : List DocTree → Nat
  | [] => 0
  | t :: ts => max (docHeight t) (docHeightList ts)
termination_by ts => sizeOf ts

end

mutual

/-- The registry function `reg` realises the document tree `t` from the
registered schema `rs`: the schema text matches the node, and every declared
reference resolves, in declaration order, to a child schema realising the
corresponding subtree. This ties the external registry collaborator to the
finite acyclic unfolding it induces from a root document. -/
def Realizes (reg : Reference → Except SRCError RegisteredSchema)
    (rs : RegisteredSchema) : DocTree → Prop
  | DocTree.node s cs => rs.schema = s ∧ RealizesRefs reg rs.references cs
termination_by t => sizeOf t

/-- Pointwise realisation of a reference list by a forest, in order. -/
def RealizesRefs (reg : Reference → Except SRCError RegisteredSchema) :
    List Reference → List DocTree → Prop
  | [], [] => True
  | r :: rest, t :: ts =>
    (∃ child, reg r = Except.ok child ∧ Realizes reg child t) ∧ RealizesRefs reg rest ts
  | _, _ => False
termination_by _ ts => sizeOf ts

end

/-! Concrete reference-graph scenarios: the chain root to A to B of the spec,
and a self-referencing cycle. -/

/-- Schema text of document B. -/
def textB : String := "proto B"

/-- Schema text of document A. -/
def textA : String := "proto A"

/-- Schema text of the root document. -/
def textRoot : String := "proto root"

/-- Reference from the root document to A. -/
def refA : Reference := { name := "a", subject := "a", version := 1 }

/-- Reference from A to B. -/
def refB : Reference := { name := "b", subject := "b", version := 1 }

/-- Document B: no references. -/
def rsB : RegisteredSchema := { schema := textB, references := [] }

/-- Document A: references B. -/
def rsA : RegisteredSchema := { schema := textA, references := [refB] }

/-- The root document: references A. -/
def rsRoot : RegisteredSchema := { schema := textRoot, references := [refA] }

/-- Registry of the chain scenario. -/
def chainReg : Reference → Except SRCError RegisteredSchema := fun r =>
  if r = refA then Except.ok rsA else Except.ok rsB

/-- The unfolding of the chain root to A to B. -/
def chainTree : DocTree :=
  DocTree.node textRoot [DocTree.node textA [DocTree.node textB []]]

/-- Schema text of the self-referencing document. -/
def textCyc : String := "proto c"

/-- The self-referencing reference of the cycle scenario. -/
def refCyc : Reference := { name := "c", subject := "c", version := 1 }

/-- A registered schema that references itself through the registry. -/
def rsCyc : RegisteredSchema := { schema := textCyc, references := [refCyc] }

/-- Registry realising the cycle: every lookup returns `rsCyc` again. -/
def cycReg : Reference → Except SRCError RegisteredSchema := fun _ => Except.ok rsCyc

/-! Helper lemmas characterising `get_vec_of_schemas` and `context` by the
branch taken. -/

/-- A hit in the closure success cache returns the stored closure and performs
no fetch and no compilation. -/
theorem gvs_hit (cb : Collab) (s : ProtoDecoder) (id : Nat) (v : List String)
    (h : s.cache id = some v) :
    s.get_vec_of_schemas cb id = (Except.ok v, s, Effects.zero) := by
  unfold ProtoDecoder.get_vec_of_schemas
  rw [h]

/-- With the success cache vacant, a cached error is returned as is, with no
fetch and no compilation. -/
theorem gvs_err_hit (cb : Collab) (s : ProtoDecoder) (id : Nat) (err : SRCError)
    (hc : s.cache id = none) (he : s.error_cache id = some err) :
    s.get_vec_of_schemas cb id = (Except.error err, s, Effects.zero) := by
  unfold ProtoDecoder.get_vec_of_schemas
  rw [hc, he]

/-- With both caches vacant at the identifier and a successful build, the
closure is stored in the success cache and one fetch is performed. -/
theorem gvs_vacant_ok (cb : Collab) (s : ProtoDecoder) (id : Nat) (v : List String)
    (hc : s.cache id = none) (he : s.error_cache id = none)
    (hb : closure_fetch cb id = Except.ok v) :
    s.get_vec_of_schemas cb id =
      (Except.ok v,
        { s with cache := fun k => if k = id then some v else s.cache k },
        { fetches := 1, compiles := 0 }) := by
  unfold ProtoDecoder.get_vec_of_schemas
  rw [hc, he, hb]

/-- With both caches vacant at the identifier and a failing build, the error is
converted with `into_cache`, stored in the error cache, and returned; one fetch
is performed. -/
theorem gvs_vacant_err (cb : Collab) (s : ProtoDecoder) (id : Nat) (e : SRCError)
    (hc : s.cache id = none) (he : s.error_cache id = none)
    (hb : closure_fetch cb id = Except.error e) :
    s.get_vec_of_schemas cb id =
      (Except.error (SRCError.into_cache e),
        { s with error_cache := fun k =>
            if k = id then some (SRCError.into_cache e) else s.error_cache k },
        { fetches := 1, compiles := 0 }) := by
  unfold ProtoDecoder.get_vec_of_schemas
  rw [hc, he, hb]

/-- A hit in the context cache returns the stored context and performs no fetch
and no compilation. -/
theorem context_hit (cb : Collab) (s : ProtoDecoder) (id : Nat) (ctx : DecodeContext)
    (h : s.context_cache id = some ctx) :
    s.context cb id = (Except.ok ctx, s, Effects.zero) := by
  unfold ProtoDecoder.context
  rw [h]

/-- Whenever `context` returns a context successfully, the resulting state has
that context stored in the context cache at the identifier. -/
theorem context_ok_cached (cb : Collab) (s : ProtoDecoder) (id : Nat) (ctx : DecodeContext)
    (s1 : ProtoDecoder) (eff : Effects)
    (h : s.context cb id = (Except.ok ctx, s1, eff)) :
    s1.context_cache id = some ctx := by
  unfold ProtoDecoder.context at h
  cases hcc : s.context_cache id with
  | some c =>
    rw [hcc] at h
    simp only [Prod.mk.injEq] at h
    obtain ⟨h1, h2, _⟩ := h
    cases h1
    cases h2
    exact hcc
  | none =>
    rw [hcc] at h
    rcases hg : s.get_vec_of_schemas cb id with ⟨res, st, ef⟩
    rw [hg] at h
    cases res with
    | error e => simp at h
    | ok vec =>
      cases hid : into_decode_context cb vec with
      | error e => simp [hid] at h
      | ok c =>
        simp only [hid, Prod.mk.injEq, Except.ok.injEq] at h
        obtain ⟨h1, h2, _⟩ := h
        cases h1
        cases h2
        simp

/-- An invalid classification carries the original input bytes verbatim. -/
theorem invalid_carries_original (p orig : List Nat)
    (h : get_bytes_result (some p) = BytesResult.invalid orig) : orig = p := by
  simp only [get_bytes_result] at h
  by_cases hc : 4 < p.length ∧ p.head? = some 0
  · rw [if_pos hc] at h
    exact absurd h (by simp)
  · rw [if_neg hc] at h
    cases h
    rfl

/-- Claim C7: for every input whose framing is malformed, both `decode` and
`decode_with_context` return without touching the decoder state at all, so in
particular the error cache is unchanged and never populated on this path. -/
theorem invalid_framing_leaves_error_cache (cb : Collab) (s : ProtoDecoder)
    (p orig : List Nat) (h : get_bytes_result (some p) = BytesResult.invalid orig) :
    ProtoDecoder.decode cb s (some p) = (Except.ok (Value.bytes orig), s, Effects.zero) ∧
    ProtoDecoder.decode_with_context cb s (some p) =
      (Except.error (SRCError.new invalidPayloadMsg none false), s, Effects.zero) ∧
    (ProtoDecoder.decode cb s (some p)).2.1.error_cache = s.error_cache ∧
    (ProtoDecoder.decode_with_context cb s (some p)).2.1.error_cache = s.error_cache := by
  have hd : ProtoDecoder.decode cb s (some p) =
      (Except.ok (Value.bytes orig), s, Effects.zero) := by
    unfold ProtoDecoder.decode
    rw [h]
  have hdc : ProtoDecoder.decode_with_context cb s (some p) =
      (Except.error (SRCError.new invalidPayloadMsg none false), s, Effects.zero) := by
    unfold ProtoDecoder.decode_with_context
    rw [h]
  exact ⟨hd, hdc, by rw [hd], by rw [hdc]⟩

/-- Witness for C7 at the concrete malformed input consisting of the single
byte 1, which has no recognisable zero-marker five-byte identifier. -/
theorem invalid_framing_leaves_error_cache_witness :
    ProtoDecoder.decode collabOk ProtoDecoder.new (some [1]) =
      (Except.ok (Value.bytes [1]), ProtoDecoder.new, Effects.zero) ∧
    ProtoDecoder.decode_with_context collabOk ProtoDecoder.new (some [1]) =
      (Except.error (SRCError.new invalidPayloadMsg none false), ProtoDecoder.new,
        Effects.zero) ∧
    (ProtoDecoder.decode collabOk ProtoDecoder.new (some [1])).2.1.error_cache =
      ProtoDecoder.new.error_cache ∧
    (ProtoDecoder.decode_with_context collabOk ProtoDecoder.new (some [1])).2.1.error_cache =
      ProtoDecoder.new.error_cache :=
  invalid_framing_leaves_error_cache collabOk ProtoDecoder.new [1] [1] (by decide)

/-- Claim C8: input classification at the public interface. Null input yields
an empty bytes value from `decode` and `Ok(None)` from `decode_with_context`;
input with no recognisable identifier yields the original bytes verbatim from
`decode` and an invalid-payload error from `decode_with_context`. -/
theorem input_classification (cb : Collab) (s : ProtoDecoder) (p orig : List Nat)
    (h : get_bytes_result (some p) = BytesResult.invalid orig) :
    (ProtoDecoder.decode cb s none).1 = Except.ok (Value.bytes []) ∧
    (ProtoDecoder.decode_with_context cb s none).1 = Except.ok none ∧
    (ProtoDecoder.decode cb s (some p)).1 = Except.ok (Value.bytes p) ∧
    (ProtoDecoder.decode_with_context cb s (some p)).1 =
      Except.error (SRCError.new invalidPayloadMsg none false) := by
  have horig : orig = p := invalid_carries_original p orig h
  refine ⟨rfl, rfl, ?_, ?_⟩
  · unfold ProtoDecoder.decode
    rw [h, horig]
  · unfold ProtoDecoder.decode_with_context
    rw [h]

/-- Witness for C8 at the concrete malformed input of the single byte 1. -/
theorem input_classification_witness :
    (ProtoDecoder.decode collabOk ProtoDecoder.new none).1 = Except.ok (Value.bytes []) ∧
    (ProtoDecoder.decode_with_context collabOk ProtoDecoder.new none).1 = Except.ok none ∧
    (ProtoDecoder.decode collabOk ProtoDecoder.new (some [1])).1 =
      Except.ok (Value.bytes [1]) ∧
    (ProtoDecoder.decode_with_context collabOk ProtoDecoder.new (some [1])).1 =
      Except.error (SRCError.new invalidPayloadMsg none false) :=
  input_classification collabOk ProtoDecoder.new [1] [1] (by decide)

/-- Claim C9: `remove_errors_from_cache` empties the whole error cache at once
and leaves both the closure success cache and the context cache exactly as they
were. -/
theorem remove_errors_clears_only_error_cache (s : ProtoDecoder) :
    (∀ id, s.remove_errors_from_cache.error_cache id = none) ∧
    s.remove_errors_from_cache.cache = s.cache ∧
    s.remove_errors_from_cache.context_cache = s.context_cache :=
  ⟨fun _ => rfl, rfl, rfl⟩

/-- Counterexample to C2 as stated: with an empty error cache (second
conjunct), the very first decode call observing the registry failure already
returns the error with the cached marker set, because `get_vec_of_schemas`
converts the error with `into_cache` before storing and returning it. The
claim says the first call returns the error without the cached marker. -/
theorem first_error_marked_cached_counterexample :
    (ProtoDecoder.decode collabErr ProtoDecoder.new (some bs0)).1 =
      Except.error { error := msgBoom, side := none, retriable := true, cached := true } ∧
    ProtoDecoder.new.error_cache 7 = none := by
  decide

/-- Amended C2: a closure-build error is converted to its cached form before it
is stored and returned, so already the first call observing the failure
returns the error with the cached marker set; subsequent calls serve the
identical marked error from the error cache. -/
theorem closure_build_error_cached_marker (cb : Collab) (s : ProtoDecoder) (id : Nat)
    (e : SRCError) (hc : s.cache id = none) (he : s.error_cache id = none)
    (hb : closure_fetch cb id = Except.error e) :
    (s.get_vec_of_schemas cb id).1 = Except.error (SRCError.into_cache e) ∧
    (SRCError.into_cache e).cached = true ∧
    (s.get_vec_of_schemas cb id).2.1.error_cache id = some (SRCError.into_cache e) ∧
    ((s.get_vec_of_schemas cb id).2.1.get_vec_of_schemas cb id).1 =
      Except.error (SRCError.into_cache e) := by
  have h1 := gvs_vacant_err cb s id e hc he hb
  have hcache1 : (s.get_vec_of_schemas cb id).2.1.cache id = none := by
    rw [h1]
    exact hc
  have herr1 : (s.get_vec_of_schemas cb id).2.1.error_cache id =
      some (SRCError.into_cache e) := by
    rw [h1]
    simp
  refine ⟨by rw [h1], rfl, herr1, ?_⟩
  rw [gvs_err_hit cb _ id (SRCError.into_cache e) hcache1 herr1]

/-- Witness for the amended C2 at the concrete failing registry. -/
theorem closure_build_error_cached_marker_witness :
    (ProtoDecoder.new.get_vec_of_schemas collabErr 7).1 =
      Except.error (SRCError.into_cache errBoom) ∧
    (SRCError.into_cache errBoom).cached = true ∧
    (ProtoDecoder.new.get_vec_of_schemas collabErr 7).2.1.error_cache 7 =
      some (SRCError.into_cache errBoom) ∧
    ((ProtoDecoder.new.get_vec_of_schemas collabErr 7).2.1.get_vec_of_schemas collabErr 7).1 =
      Except.error (SRCError.into_cache errBoom) :=
  closure_build_error_cached_marker collabErr ProtoDecoder.new 7 errBoom rfl rfl rfl

/-- Claim C5: after a decode call fails because the registry fetch for the
identifier failed, a second decode call for the same bytes serves the identical
cached error from the error cache without invoking the registry, and after
`remove_errors_from_cache` the next decode call invokes the registry again. -/
theorem cached_error_replay_and_clear (cb : Collab) (s : ProtoDecoder)
    (bytes : Option (List Nat)) (id : Nat) (rest : List Nat) (e : SRCError)
    (hbr : get_bytes_result bytes = BytesResult.valid id rest)
    (hc : s.cache id = none) (he : s.error_cache id = none)
    (hb : closure_fetch cb id = Except.error e) :
    (ProtoDecoder.decode cb s bytes).1 = Except.error (SRCError.into_cache e) ∧
    (ProtoDecoder.decode cb s bytes).2.2.fetches = 1 ∧
    (ProtoDecoder.decode cb (ProtoDecoder.decode cb s bytes).2.1 bytes).1 =
      Except.error (SRCError.into_cache e) ∧
    (ProtoDecoder.decode cb (ProtoDecoder.decode cb s bytes).2.1 bytes).2.2.fetches = 0 ∧
    (ProtoDecoder.decode cb
        (ProtoDecoder.decode cb s bytes).2.1.remove_errors_from_cache bytes).2.2.fetches = 1 := by
  have hg1 := gvs_vacant_err cb s id e hc he hb
  have hdes1 : s.deserialize cb id rest =
      (Except.error (SRCError.into_cache e), (s.get_vec_of_schemas cb id).2.1,
        { fetches := 1, compiles := 0 }) := by
    unfold ProtoDecoder.deserialize
    rw [hg1]
  have hdec1 : ProtoDecoder.decode cb s bytes =
      (Except.error (SRCError.into_cache e), (s.get_vec_of_schemas cb id).2.1,
        { fetches := 1, compiles := 0 }) := by
    unfold ProtoDecoder.decode
    rw [hbr]
    simp only [hdes1]
  have hcache1 : (s.get_vec_of_schemas cb id).2.1.cache id = none := by
    rw [hg1]
    exact hc
  have herr1 : (s.get_vec_of_schemas cb id).2.1.error_cache id =
      some (SRCError.into_cache e) := by
    rw [hg1]
    simp
  have hg2 := gvs_err_hit cb (s.get_vec_of_schemas cb id).2.1 id
    (SRCError.into_cache e) hcache1 herr1
  have hdes2 : (s.get_vec_of_schemas cb id).2.1.deserialize cb id rest =
      (Except.error (SRCError.into_cache e), (s.get_vec_of_schemas cb id).2.1,
        Effects.zero) := by
    unfold ProtoDecoder.deserialize
    rw [hg2]
  have hdec2 : ProtoDecoder.decode cb (s.get_vec_of_schemas cb id).2.1 bytes =
      (Except.error (SRCError.into_cache e), (s.get_vec_of_schemas cb id).2.1,
        Effects.zero) := by
    unfold ProtoDecoder.decode
    rw [hbr]
    simp only [hdes2]
  have hcache3 :
      (s.get_vec_of_schemas cb id).2.1.remove_errors_from_cache.cache id = none := hcache1
  have herr3 :
      (s.get_vec_of_schemas cb id).2.1.remove_errors_from_cache.error_cache id = none := rfl
  have hg3 := gvs_vacant_err cb
    (s.get_vec_of_schemas cb id).2.1.remove_errors_from_cache id e hcache3 herr3 hb
  have hdes3 :
      (s.get_vec_of_schemas cb id).2.1.remove_errors_from_cache.deserialize cb id rest =
      (Except.error (SRCError.into_cache e),
        ((s.get_vec_of_schemas cb id).2.1.remove_errors_from_cache.get_vec_of_schemas
          cb id).2.1,
        { fetches := 1, compiles := 0 }) := by
    unfold ProtoDecoder.deserialize
    rw [hg3]
  have hdec3 : ProtoDecoder.decode cb
      (s.get_vec_of_schemas cb id).2.1.remove_errors_from_cache bytes =
      (Except.error (SRCError.into_cache e),
        ((s.get_vec_of_schemas cb id).2.1.remove_errors_from_cache.get_vec_of_schemas
          cb id).2.1,
        { fetches := 1, compiles := 0 }) := by
    unfold ProtoDecoder.decode
    rw [hbr]
    simp only [hdes3]
  refine ⟨?_, ?_, ?_, ?_, ?_⟩
  · rw [hdec1]
  · rw [hdec1]
  · simp only [hdec1]
    rw [hdec2]
  · simp only [hdec1]
    rw [hdec2]
    rfl
  · simp only [hdec1]
    rw [hdec3]


/-- The reference loop refines the spec linearisation: with every child tree of
height at most the fuel, the loop appends exactly the concatenated child
closures in declaration order. The hypothesis `hA` is the induction hypothesis
on fuel for whole documents. -/
theorem add_files_refs_realizes (reg : Reference → Except SRCError RegisteredSchema)
    (fuel : Nat)
    (hA : ∀ t rs files, Realizes reg rs t → docHeight t ≤ fuel →
      add_files reg fuel rs files = AddFilesResult.ok (files ++ closureSpec t)) :
    ∀ ts refs files, RealizesRefs reg refs ts → docHeightList ts ≤ fuel →
      add_files_refs reg fuel refs files =
        AddFilesResult.ok (files ++ closureSpecList ts) := by
  intro ts
  induction ts with
  | nil =>
    intro refs files hr hh
    cases refs with
    | nil => simp [add_files_refs, closureSpecList]
    | cons r rest => exact absurd hr (by simp [RealizesRefs])
  | cons t ts ih =>
    intro refs files hr hh
    cases refs with
    | nil => exact absurd hr (by simp [RealizesRefs])
    | cons r rest =>
      simp only [RealizesRefs] at hr
      obtain ⟨⟨child, hregr, hreal⟩, hrest⟩ := hr
      simp only [docHeightList, max_le_iff] at hh
      have hchild := hA t child files hreal hh.1
      have hresteq := ih rest (files ++ closureSpec t) hrest hh.2
      simp only [add_files_refs, hregr, hchild, hresteq, closureSpecList,
        List.append_assoc]

/-- Fuel-indexed refinement of `add_files` to the spec linearisation: whenever
the registry realises a finite tree from the root schema and the fuel covers
the tree height, `add_files` succeeds and appends exactly the spec closure of
the tree. -/
theorem add_files_realizes (reg : Reference → Except SRCError RegisteredSchema) :
    ∀ fuel t rs files, Realizes reg rs t → docHeight t ≤ fuel →
      add_files reg fuel rs files = AddFilesResult.ok (files ++ closureSpec t) := by
  intro fuel
  induction fuel with
  | zero =>
    intro t rs files _ hh
    cases t with
    | node s cs =>
      exact absurd hh (by simp [docHeight])
  | succ f ih =>
    intro t rs files hre hh
    cases t with
    | node s cs =>
      simp only [Realizes] at hre
      obtain ⟨hs, hrefs⟩ := hre
      have hhl : docHeightList cs ≤ f := by
        simp only [docHeight] at hh
        omega
      have hb := add_files_refs_realizes reg f ih cs rs.references files hrefs hhl
      simp only [add_files, hb, closureSpec, hs, List.append_assoc]


/-- The chain registry realises the chain tree from the root document. -/
theorem chain_realizes : Realizes chainReg rsRoot chainTree := by
  simp [chainTree, Realizes, RealizesRefs, chainReg, rsRoot, rsA, rsB, refA, refB]

/-- Height of the chain tree. -/
theorem chain_height : docHeight chainTree = 3 := by
  simp [chainTree, docHeight, docHeightList]

/-- Spec linearisation of the chain tree: B text, then A text, then root
text. -/
theorem chain_closure : closureSpec chainTree = [textB, textA, textRoot] := by
  simp [chainTree, closureSpec, closureSpecList]


/-- Claim C3: reference resolution is the depth-first traversal of the spec,
resolving each declared reference in declaration order and appending each
referenced document sub-closure before the current document text: for every
root schema whose reference graph unfolds into the finite tree `t`, the
resolved closure is exactly the spec linearisation `closureSpec t`, and its
final element is the root document text. At the chain root to A to B the
closure is the list B text, A text, root text (see the witness). -/
theorem closure_dependency_order (reg : Reference → Except SRCError RegisteredSchema)
    (rs : RegisteredSchema) (t : DocTree) (fuel : Nat)
    (hre : Realizes reg rs t) (hf : docHeight t ≤ fuel) :
    to_vec_of_schemas reg fuel rs = AddFilesResult.ok (closureSpec t) ∧
    (closureSpec t).getLast? = some rs.schema := by
  constructor
  · have h := add_files_realizes reg fuel t rs [] hre hf
    simpa [to_vec_of_schemas] using h
  · cases t with
    | node s cs =>
      simp only [Realizes] at hre
      simp [closureSpec, hre.1, List.getLast?_concat]

/-- Witness for C3 at the chain scenario: the closure is B text, A text, root
text, with the root text last. -/
theorem closure_dependency_order_witness :
    to_vec_of_schemas chainReg 3 rsRoot = AddFilesResult.ok [textB, textA, textRoot] ∧
    (closureSpec chainTree).getLast? = some rsRoot.schema := by
  have h := closure_dependency_order chainReg rsRoot chainTree 3 chain_realizes
    (by simp [chain_height])
  refine ⟨?_, h.2⟩
  rw [h.1, chain_closure]

/-- Claim C10: closure resolution terminates for every root whose reference
graph is acyclic — it unfolds into a finite tree and resolution succeeds as
soon as the fuel covers the tree height — and performs no cycle detection: on
the self-referencing registry the recursion exhausts every fuel bound, the
embedding image of unbounded recursion in the source. -/
theorem add_files_termination :
    (∀ reg rs t files fuel, Realizes reg rs t → docHeight t ≤ fuel →
      add_files reg fuel rs files = AddFilesResult.ok (files ++ closureSpec t)) ∧
    (∀ fuel files, add_files cycReg fuel rsCyc files = AddFilesResult.outOfFuel) := by
  constructor
  · intro reg rs t files fuel hre hh
    exact add_files_realizes reg fuel t rs files hre hh
  · intro fuel
    induction fuel with
    | zero =>
      intro files
      simp [add_files]
    | succ f ih =>
      intro files
      have hstep : add_files_refs cycReg f [refCyc] files = AddFilesResult.outOfFuel := by
        simp only [add_files_refs, cycReg, ih files]
      simp only [add_files, rsCyc, hstep]

/-- Witness for C10: the chain resolves with fuel 3, and the cycle exhausts the
concrete fuel 5. -/
theorem add_files_termination_witness :
    add_files chainReg 3 rsRoot [] = AddFilesResult.ok ([] ++ closureSpec chainTree) ∧
    add_files cycReg 5 rsCyc [] = AddFilesResult.outOfFuel :=
  ⟨add_files_termination.1 chainReg rsRoot chainTree [] 3 chain_realizes
      (by simp [chain_height]),
    add_files_termination.2 5 []⟩

/-- Counterexample to C1 as stated: with collaborators for which every step
succeeds, the first plain `decode` call for identifier 7 succeeds and compiles
a descriptor pool once; the second `decode` call for the same identifier hits
the closure cache (zero fetches) yet still invokes descriptor-pool compilation
once more, because `deserialize` calls `into_decode_context` directly and never
consults the context cache. The claim requires the second call to reuse the
already built context instead of rebuilding it. -/
theorem decode_recompiles_context_counterexample :
    (ProtoDecoder.decode collabOk ProtoDecoder.new (some bs0)).1 =
      Except.ok (Value.message { full_name := nameX, data := [] }) ∧
    (ProtoDecoder.decode collabOk ProtoDecoder.new (some bs0)).2.2.compiles = 1 ∧
    (ProtoDecoder.decode collabOk
        (ProtoDecoder.decode collabOk ProtoDecoder.new (some bs0)).2.1
        (some bs0)).2.2.fetches = 0 ∧
    (ProtoDecoder.decode collabOk
        (ProtoDecoder.decode collabOk ProtoDecoder.new (some bs0)).2.1
        (some bs0)).2.2.compiles = 1 := by
  decide

/-- Amended C1: the context cache is consulted only on the
`decode_with_context` path. After a successful `decode_with_context` call, the
built context is cached by identifier, and a second identical call reuses it:
it returns the same result, leaves the state unchanged, and performs zero
registry fetches and zero descriptor-pool compilations. The plain `decode`
path compiles on every call. -/
theorem decode_with_context_reuses_cached_context (cb : Collab) (s : ProtoDecoder)
    (bytes : Option (List Nat)) (r : DecodeResultWithContext)
    (h : (ProtoDecoder.decode_with_context cb s bytes).1 = Except.ok (some r)) :
    ProtoDecoder.decode_with_context cb
        (ProtoDecoder.decode_with_context cb s bytes).2.1 bytes =
      (Except.ok (some r), (ProtoDecoder.decode_with_context cb s bytes).2.1,
        Effects.zero) := by
  cases hbr : get_bytes_result bytes with
  | null =>
    unfold ProtoDecoder.decode_with_context at h
    rw [hbr] at h
    simp at h
  | invalid i =>
    unfold ProtoDecoder.decode_with_context at h
    rw [hbr] at h
    simp at h
  | valid id rest =>
    rcases hd : s.deserialize_with_context cb id rest with ⟨res, st, ef⟩
    have hdwc : ProtoDecoder.decode_with_context cb s bytes =
        (match s.deserialize_with_context cb id rest with
         | (Except.ok v, s1, eff) => (Except.ok (some v), s1, eff)
         | (Except.error e, s1, eff) => (Except.error e, s1, eff)) := by
      unfold ProtoDecoder.decode_with_context
      rw [hbr]
    rw [hd] at hdwc
    cases res with
    | error e =>
      rw [hdwc] at h
      simp at h
    | ok v =>
      rw [hdwc] at h
      simp only at h
      cases h
      unfold ProtoDecoder.deserialize_with_context at hd
      rcases hctx : s.context cb id with ⟨cres, cst, cef⟩
      rw [hctx] at hd
      cases cres with
      | error e => simp at hd
      | ok ctx =>
        cases hrn : cb.resolve_name ctx.resolver (to_index_and_data rest).1 with
        | error e => simp [hrn] at hd
        | ok full_name =>
          simp only [hrn, Prod.mk.injEq, Except.ok.injEq] at hd
          obtain ⟨hv, hst, hef⟩ := hd
          cases hst
          cases hef
          have hcached : st.context_cache id = some ctx :=
            context_ok_cached cb s id ctx st ef hctx
          have hctx2 : st.context cb id = (Except.ok ctx, st, Effects.zero) :=
            context_hit cb st id ctx hcached
          have hd2 : st.deserialize_with_context cb id rest =
              (Except.ok r, st, Effects.zero) := by
            unfold ProtoDecoder.deserialize_with_context
            rw [hctx2]
            simp only [hrn]
            rw [hv]
          simp only [hdwc]
          unfold ProtoDecoder.decode_with_context
          rw [hbr]
          simp only [hd2]

/-- Witness for the amended C1: after the first successful
`decode_with_context` call for identifier 7, the second identical call returns
the same result with zero fetches and zero compilations. -/
theorem decode_with_context_reuses_cached_context_witness :
    ProtoDecoder.decode_with_context collabOk
        (ProtoDecoder.decode_with_context collabOk ProtoDecoder.new (some bs0)).2.1
        (some bs0) =
      (Except.ok (some rVal),
        (ProtoDecoder.decode_with_context collabOk ProtoDecoder.new (some bs0)).2.1,
        Effects.zero) :=
  decode_with_context_reuses_cached_context collabOk ProtoDecoder.new (some bs0) rVal
    (by decide)


/-- One `get_vec_of_schemas` call preserves cache exclusivity: a success is
inserted only when the error cache is vacant at the identifier, a failure is
inserted only when the success cache is vacant at the identifier. -/
theorem gvs_preserves_exclusive (cb : Collab) (s : ProtoDecoder) (id : Nat)
    (h : ExclusiveCaches s) : ExclusiveCaches (s.get_vec_of_schemas cb id).2.1 := by
  cases hc : s.cache id with
  | some v =>
    rw [gvs_hit cb s id v hc]
    exact h
  | none =>
    cases he : s.error_cache id with
    | some err =>
      rw [gvs_err_hit cb s id err hc he]
      exact h
    | none =>
      cases hb : closure_fetch cb id with
      | ok v =>
        rw [gvs_vacant_ok cb s id v hc he hb]
        intro k
        by_cases hk : k = id
        · subst hk
          exact Or.inr he
        · rcases h k with h1 | h1
          · left
            simpa [hk] using h1
          · exact Or.inr h1
      | error e =>
        rw [gvs_vacant_err cb s id e hc he hb]
        intro k
        by_cases hk : k = id
        · subst hk
          exact Or.inl hc
        · rcases h k with h1 | h1
          · exact Or.inl h1
          · right
            simpa [hk] using h1

/-- One `context` call preserves cache exclusivity: it only inserts into the
context cache, which the predicate does not mention, on top of one
`get_vec_of_schemas` call. -/
theorem context_preserves_exclusive (cb : Collab) (s : ProtoDecoder) (id : Nat)
    (h : ExclusiveCaches s) : ExclusiveCaches (s.context cb id).2.1 := by
  unfold ProtoDecoder.context
  cases hcc : s.context_cache id with
  | some ctx => exact h
  | none =>
    rcases hg : s.get_vec_of_schemas cb id with ⟨res, st, ef⟩
    have hst : ExclusiveCaches st := by
      have h2 := gvs_preserves_exclusive cb s id h
      rwa [hg] at h2
    cases res with
    | error e => exact hst
    | ok vec =>
      cases hic : into_decode_context cb vec with
      | error e =>
        simp only [hic]
        exact hst
      | ok ctx =>
        simp only [hic]
        exact hst

/-- One `deserialize` call preserves cache exclusivity. -/
theorem deserialize_preserves_exclusive (cb : Collab) (s : ProtoDecoder) (id : Nat)
    (bytes : List Nat) (h : ExclusiveCaches s) :
    ExclusiveCaches (s.deserialize cb id bytes).2.1 := by
  unfold ProtoDecoder.deserialize
  rcases hg : s.get_vec_of_schemas cb id with ⟨res, st, ef⟩
  have hst : ExclusiveCaches st := by
    have h2 := gvs_preserves_exclusive cb s id h
    rwa [hg] at h2
  cases res with
  | error e => exact hst
  | ok vec =>
    cases hic : into_decode_context cb vec with
    | error e =>
      simp only [hic]
      exact hst
    | ok ctx =>
      cases hrn : cb.resolve_name ctx.resolver (to_index_and_data bytes).1 with
      | error e =>
        simp only [hic, hrn]
        exact hst
      | ok full_name =>
        simp only [hic, hrn]
        exact hst

/-- One `deserialize_with_context` call preserves cache exclusivity. -/
theorem dwc_inner_preserves_exclusive (cb : Collab) (s : ProtoDecoder) (id : Nat)
    (bytes : List Nat) (h : ExclusiveCaches s) :
    ExclusiveCaches (s.deserialize_with_context cb id bytes).2.1 := by
  unfold ProtoDecoder.deserialize_with_context
  rcases hctx : s.context cb id with ⟨res, st, ef⟩
  have hst : ExclusiveCaches st := by
    have h2 := context_preserves_exclusive cb s id h
    rwa [hctx] at h2
  cases res with
  | error e => exact hst
  | ok ctx =>
    cases hrn : cb.resolve_name ctx.resolver (to_index_and_data bytes).1 with
    | error e =>
      simp only [hrn]
      exact hst
    | ok full_name =>
      simp only [hrn]
      exact hst

/-- One public `decode` call preserves cache exclusivity. -/
theorem decode_preserves_exclusive (cb : Collab) (s : ProtoDecoder)
    (bytes : Option (List Nat)) (h : ExclusiveCaches s) :
    ExclusiveCaches (ProtoDecoder.decode cb s bytes).2.1 := by
  unfold ProtoDecoder.decode
  cases hbr : get_bytes_result bytes with
  | null => exact h
  | invalid i => exact h
  | valid id rest =>
    rcases hd : s.deserialize cb id rest with ⟨res, st, ef⟩
    have hst : ExclusiveCaches st := by
      have h2 := deserialize_preserves_exclusive cb s id rest h
      rwa [hd] at h2
    cases res with
    | error e =>
      simp only [hd]
      exact hst
    | ok m =>
      simp only [hd]
      exact hst

/-- One public `decode_with_context` call preserves cache exclusivity. -/
theorem decode_with_context_preserves_exclusive (cb : Collab) (s : ProtoDecoder)
    (bytes : Option (List Nat)) (h : ExclusiveCaches s) :
    ExclusiveCaches (ProtoDecoder.decode_with_context cb s bytes).2.1 := by
  unfold ProtoDecoder.decode_with_context
  cases hbr : get_bytes_result bytes with
  | null => exact h
  | invalid i => exact h
  | valid id rest =>
    rcases hd : s.deserialize_with_context cb id rest with ⟨res, st, ef⟩
    have hst : ExclusiveCaches st := by
      have h2 := dwc_inner_preserves_exclusive cb s id rest h
      rwa [hd] at h2
    cases res with
    | error e =>
      simp only [hd]
      exact hst
    | ok v =>
      simp only [hd]
      exact hst


/-- Claim C6: in every reachable decoder state the closure success cache and
the error cache are mutually exclusive per identifier: no identifier has an
entry in both at the same instant, under any sequence of decode calls and
error-cache clears. -/
theorem success_error_cache_exclusive (s : ProtoDecoder) (h : Reachable s) :
    ∀ id, s.cache id = none ∨ s.error_cache id = none := by
  induction h with
  | init => exact fun _ => Or.inl rfl
  | decode_step cb s1 bytes _ ih => exact decode_preserves_exclusive cb s1 bytes ih
  | decode_with_context_step cb s1 bytes _ ih =>
    exact decode_with_context_preserves_exclusive cb s1 bytes ih
  | clear_step s1 _ _ => exact fun _ => Or.inr rfl

/-- Witness for C6 at the state reached by one failing decode call. -/
theorem success_error_cache_exclusive_witness :
    (ProtoDecoder.decode collabErr ProtoDecoder.new (some bs0)).2.1.cache 7 = none ∨
    (ProtoDecoder.decode collabErr ProtoDecoder.new (some bs0)).2.1.error_cache 7 = none :=
  success_error_cache_exclusive
    (ProtoDecoder.decode collabErr ProtoDecoder.new (some bs0)).2.1
    (Reachable.decode_step collabErr ProtoDecoder.new (some bs0) Reachable.init) 7

/-- Witness for C5 at the concrete failing registry and the concrete valid
input bytes for identifier 7. -/
theorem cached_error_replay_and_clear_witness :
    (ProtoDecoder.decode collabErr ProtoDecoder.new (some bs0)).1 =
      Except.error (SRCError.into_cache errBoom) ∧
    (ProtoDecoder.decode collabErr ProtoDecoder.new (some bs0)).2.2.fetches = 1 ∧
    (ProtoDecoder.decode collabErr
        (ProtoDecoder.decode collabErr ProtoDecoder.new (some bs0)).2.1 (some bs0)).1 =
      Except.error (SRCError.into_cache errBoom) ∧
    (ProtoDecoder.decode collabErr
        (ProtoDecoder.decode collabErr ProtoDecoder.new (some bs0)).2.1
        (some bs0)).2.2.fetches = 0 ∧
    (ProtoDecoder.decode collabErr
        (ProtoDecoder.decode collabErr ProtoDecoder.new
            (some bs0)).2.1.remove_errors_from_cache (some bs0)).2.2.fetches = 1 :=
  cached_error_replay_and_clear collabErr ProtoDecoder.new (some bs0) 7 [0] errBoom
    (by decide) rfl rfl rfl
